import Mathlib

/-!
Verification development for the accountability-agent pipeline
(`functions/src/index.ts`): a Cloud Function that scans chat messages for
future-dated commitments, stores reminder documents keyed by a
deterministic fingerprint, and schedules notification tasks at UTC
midnight of the commitment date.

The TypeScript source is shallowly embedded here.  Conventions of the
embedding:

* JavaScript `Date` instants are modelled as an integer number of
  milliseconds since the Unix epoch; since every instant the code
  constructs is a UTC midnight, most functions work with whole days
  (`Int`, days since 1970-01-01).  The host timezone is taken to be UTC
  (the Cloud Functions runtime), so `new Date()`-style local-time
  parsing coincides with UTC parsing.
* The JavaScript regular expressions of the source are embedded by a
  small backtracking matcher over `List Char` whose segment lists mirror
  the regex literal segment by segment (leftmost match, alternatives and
  greedy repetition tried in JS preference order).
* `crypto.createHash('sha256')` is embedded by an executable SHA-256
  over the UTF-8 bytes of the input string.
* Fallible code (`throw`) is embedded with `Except` / `Option`.
-/

namespace AccountabilityAgent

/-! ## Calendar arithmetic

Gregorian calendar conversions (days since 1970-01-01), the standard
era-based civil-date algorithm.  All years handled by the program come
from four-digit sources (0..9999), so the computation is shifted by 400
years to stay in `Nat`. -/

def isLeapYear (y : Nat) : Bool :=
  (y % 4 == 0 && y % 100 != 0) || y % 400 == 0

def daysInMonth (y m : Nat) : Nat :=
  if m == 2 then (if isLeapYear y then 29 else 28)
  else if m == 4 || m == 6 || m == 9 || m == 11 then 30
  else 31

/-- Days from the era base to year `y`, month `m`, day `d`, requiring
`y ≥ 1` after the March-based year shift (callers pass `y + 400`). -/
def daysFromCivilRaw (y m d : Nat) : Nat :=
  let ys := if m ≤ 2 then y - 1 else y
  let era := ys / 400
  let yoe := ys % 400
  let mp := if m > 2 then m - 3 else m + 9
  let doy := (153 * mp + 2) / 5 + d - 1
  let doe := yoe * 365 + yoe / 4 - yoe / 100 + doy
  era * 146097 + doe

/-- Days since 1970-01-01 of the civil date `(y, m, d)` (for `y ≤ 9999`).
`719468 + 146097` is the raw day number of 1970-01-01 computed with the
extra 400-year shift. -/
def civilToDays (y m d : Nat) : Int :=
  (daysFromCivilRaw (y + 400) m d : Int) - 865565

/-- Inverse conversion: civil date `(y, m, d)` of a day number (valid for
dates with year 0..9999). -/
def civilFromDays (z : Int) : Nat × Nat × Nat :=
  let zn := (z + 865565).toNat
  let era := zn / 146097
  let doe := zn % 146097
  let yoe := (doe - doe / 1460 + doe / 36524 - doe / 146096) / 365
  let y := yoe + era * 400
  let doy := doe - (365 * yoe + yoe / 4 - yoe / 100)
  let mp := (5 * doy + 2) / 153
  let d := doy - (153 * mp + 2) / 5 + 1
  let m := if mp < 10 then mp + 3 else mp - 9
  ((if m ≤ 2 then y + 1 else y) - 400, m, d)

/-- Zero-pad the decimal rendering of `n` to width `w`. -/
def padNat (w n : Nat) : String :=
  let s := toString n
  String.mk (List.replicate (w - s.length) '0') ++ s

/-- `Date.prototype.toISOString().split('T')[0]`: the `YYYY-MM-DD`
rendering of a UTC-midnight instant given as a day number. -/
def isoOfDays (z : Int) : String :=
  let c := civilFromDays z
  padNat 4 c.1 ++ "-" ++ padNat 2 c.2.1 ++ "-" ++ padNat 2 c.2.2

/-! ## Character classes and small string helpers -/

def isDigitC (c : Char) : Bool := 48 ≤ c.toNat && c.toNat ≤ 57

def isAlphaC (c : Char) : Bool :=
  (65 ≤ c.toNat && c.toNat ≤ 90) || (97 ≤ c.toNat && c.toNat ≤ 122)

/-- The characters matched by the JS regex class `\s` (the ASCII ones
plus NBSP; the remaining Unicode space code points never occur in the
inputs considered here). -/
def isSpaceC (c : Char) : Bool :=
  c.toNat == 32 || (9 ≤ c.toNat && c.toNat ≤ 13) || c.toNat == 160

def digitsToNat (l : List Char) : Nat :=
  l.foldl (fun acc c => acc * 10 + (c.toNat - 48)) 0

/-- `String.prototype.trim()` on the character list. -/
def trimChars (l : List Char) : List Char :=
  ((l.dropWhile isSpaceC).reverse.dropWhile isSpaceC).reverse

def jsTrim (s : String) : String := String.mk (trimChars s.toList)

/-- Case-insensitive test that `p` (given lowercase) starts the list `l`. -/
def leadsCI : List Char → List Char → Bool
  | [], _ => true
  | _ :: _, [] => false
  | p :: ps, c :: cs => (c.toLower == p) && leadsCI ps cs

/-- `needle` occurs as a contiguous substring of `hay`
(JS `String.prototype.includes`). -/
def substrB (needle : List Char) : List Char → Bool
  | [] => needle.isEmpty
  | c :: rest => needle.isPrefixOf (c :: rest) || substrB needle rest

/-! ## JavaScript date parsing model

Every `Date` the program builds denotes a UTC midnight, so parsers
return the day number (`Int`, days since epoch); `none` stands for
JavaScript's `Invalid Date` (`isNaN(date.getTime())`). -/

/-- Strict `YYYY-MM-DD` shape: exactly ten characters, digits in the
digit slots, dashes in the dash slots, and a real calendar date.  This
is the validity domain of `new Date("YYYY-MM-DDT00:00:00.000Z")`, whose
ISO-format parser rejects out-of-range months and days. -/
def parseYMDStrict (s : String) : Option (Nat × Nat × Nat) :=
  match s.toList with
  | [y1, y2, y3, y4, h1, m1, m2, h2, d1, d2] =>
    if isDigitC y1 && isDigitC y2 && isDigitC y3 && isDigitC y4 &&
       h1 == '-' && isDigitC m1 && isDigitC m2 &&
       h2 == '-' && isDigitC d1 && isDigitC d2 then
      let y := digitsToNat [y1, y2, y3, y4]
      let m := digitsToNat [m1, m2]
      let d := digitsToNat [d1, d2]
      if 1 ≤ m && m ≤ 12 && 1 ≤ d && d ≤ daysInMonth y m then
        some (y, m, d)
      else none
    else none
  | _ => none

/-- `new Date(s + 'T00:00:00.000Z')` as a day number. -/
def jsDateIsoZ (s : String) : Option Int :=
  (parseYMDStrict s).map (fun c => civilToDays c.1 c.2.1 c.2.2)

def monthNames : List String :=
  ["january", "february", "march", "april", "may", "june", "july",
   "august", "september", "october", "november", "december"]

/-- V8 month-word recognition: the lowercased word must be a prefix of a
month name and at least three characters long (`"aug"`, `"august"`), or
the whole name.  Returns the 1-based month. -/
def monthFromWord (w : List Char) : Option Nat :=
  let lw := w.map Char.toLower
  (monthNames.findIdx? (fun name =>
      decide (3 ≤ lw.length) && lw.isPrefixOf name.toList)).map (· + 1)

/-- `new Date("August 15, 2025")` — V8's legacy parser on a
`Word day[,] year` string (host timezone UTC).  The day must be in
1..31 and rolls over past the end of the month (V8 `MakeDay`), e.g.
`"February 30, 2025"` parses to March 2. -/
def jsParseNatural (s : String) : Option Int :=
  let l := trimChars s.toList
  let w := l.takeWhile isAlphaC
  let r1 := l.drop w.length
  let sp1 := r1.takeWhile isSpaceC
  let r2 := r1.drop sp1.length
  let dds := r2.takeWhile isDigitC
  let r3 := r2.drop dds.length
  let r3b := if r3.head? == some ',' then r3.drop 1 else r3
  let sp2 := r3b.takeWhile isSpaceC
  let r4 := r3b.drop sp2.length
  let yds := r4.takeWhile isDigitC
  let r5 := r4.drop yds.length
  match monthFromWord w with
  | none => none
  | some m =>
    if sp1.length == 0 || dds.length == 0 || dds.length > 2 ||
       sp2.length == 0 || yds.length != 4 || !r5.isEmpty then none
    else
      let d := digitsToNat dds
      let y := digitsToNat yds
      if 1 ≤ d && d ≤ 31 then
        some (civilToDays y m 1 + (d - 1))
      else none

/-- `new Date("M/D/YYYY")` — V8's legacy parser on a slash date (host
timezone UTC): month must be 1..12, day 1..31 with end-of-month
rollover, year four digits. -/
def jsParseSlash (s : String) : Option Int :=
  let l := trimChars s.toList
  let mds := l.takeWhile isDigitC
  let r1 := l.drop mds.length
  match r1 with
  | '/' :: r2 =>
    let dds := r2.takeWhile isDigitC
    let r3 := r2.drop dds.length
    match r3 with
    | '/' :: r4 =>
      let yds := r4.takeWhile isDigitC
      let r5 := r4.drop yds.length
      if mds.length == 0 || mds.length > 2 || dds.length == 0 ||
         dds.length > 2 || yds.length != 4 || !r5.isEmpty then none
      else
        let m := digitsToNat mds
        let d := digitsToNat dds
        let y := digitsToNat yds
        if 1 ≤ m && m ≤ 12 && 1 ≤ d && d ≤ 31 then
          some (civilToDays y m 1 + (d - 1))
        else none
    | _ => none
  | _ => none

/-- `new Date(s)` for the date strings reaching the fallback analyzer:
a bare ISO date parses as UTC midnight via the ISO path; otherwise the
legacy parser handles month-name and slash forms. -/
def jsNewDate (s : String) : Option Int :=
  match jsDateIsoZ s with
  | some d => some d
  | none =>
    match jsParseNatural s with
    | some d => some d
    | none => jsParseSlash s

/-! ## `calculateScheduleTime` -/

/-- Milliseconds since epoch of 00:00:00.000 UTC on civil date
`(y, m, d)`. -/
def utcMidnightMs (y m d : Nat) : Int := 86400000 * civilToDays y m d

/-- Embeds `calculateScheduleTime(dateIso)`: builds
`new Date(dateIso + 'T00:00:00.000Z')` and throws
`Invalid date format: ...` when the result is not a valid instant;
returns the instant in milliseconds since epoch. -/
def calculateScheduleTime (dateIso : String) : Except String Int :=
  match jsDateIsoZ dateIso with
  | none => Except.error ("Invalid date format: " ++ dateIso)
  | some day => Except.ok (86400000 * day)

/-! ## Regex embedding

Each JS regex of the source is a sequence of segments; a segment, given
the remaining input, yields the candidate lengths it may consume, in the
preference order of the JS engine (alternatives in written order,
repetition greedy-first).  A pattern splits into the non-captured lead
and the single capture group.  `scanMatch` is `String.prototype.match`:
leftmost position first, depth-first backtracking at a position. -/

abbrev Seg := List Char → List Nat

/-- Case-insensitive literal alternation, e.g. `(?:on|by|until|before)`:
each alternative that starts the input contributes its length, in
written order. -/
def altCI (ws : List String) : Seg := fun l =>
  ws.filterMap (fun w =>
    if leadsCI w.toList l then some w.toList.length else none)

/-- A single literal character, e.g. `-` or `/`. -/
def litc (ch : Char) : Seg := fun l =>
  match l with
  | c :: _ => if c == ch then [1] else []
  | [] => []

/-- Candidate lengths `hi, hi-1, ..., lo` (empty when `hi < lo`). -/
def descRange (lo hi : Nat) : List Nat :=
  (List.range (hi + 1 - lo)).map (fun i => hi - i)

/-- Bounded greedy repetition of a character class, e.g. `\d{1,2}`. -/
def clsRep (p : Char → Bool) (lo hi : Nat) : Seg := fun l =>
  descRange lo (min (l.takeWhile p).length hi)

/-- Unbounded one-or-more greedy repetition, e.g. `\s+` or `[A-Za-z]+`. -/
def clsRep1 (p : Char → Bool) : Seg := fun l =>
  descRange 1 (l.takeWhile p).length

/-- Optional literal character, e.g. `,?` (greedy: present first). -/
def optc (ch : Char) : Seg := fun l =>
  match l with
  | c :: _ => if c == ch then [1, 0] else [0]
  | [] => [0]

/-- All total consumptions of a segment sequence, depth-first in
preference order. -/
def seqAll : List Seg → List Char → List Nat
  | [], _ => [0]
  | s :: ss, l =>
    (s l).flatMap (fun k => (seqAll ss (List.drop k l)).map (fun m => k + m))

def firstSome : List α → (α → Option β) → Option β
  | [], _ => none
  | a :: rest, f =>
    match f a with
    | some b => some b
    | none => firstSome rest f

/-- Match `pre` then `grp` at the head of `l`, backtracking across the
boundary; returns the consumed lengths `(lead, group)` of the first
success. -/
def matchHere (pre grp : List Seg) (l : List Char) : Option (Nat × Nat) :=
  firstSome (seqAll pre l) (fun a =>
    ((seqAll grp (List.drop a l)).head?).map (fun b => (a, b)))

/-- Leftmost match of the pattern in `l`: the full matched text and the
capture-group text (`match[0]` and `match[1]`). -/
def scanMatch (pre grp : List Seg) : List Char → Option (List Char × List Char)
  | [] =>
    match matchHere pre grp [] with
    | some _ => some ([], [])
    | none => none
  | c :: rest =>
    match matchHere pre grp (c :: rest) with
    | some (a, b) =>
      some (List.take (a + b) (c :: rest), List.take b (List.drop a (c :: rest)))
    | none => scanMatch pre grp rest

/-! The segment lists of the date regexes shared by the Genkit tool and
the fallback analyzer. -/

/-- `(?:on|by|until|before)\s+` — the non-captured lead of the
preposition patterns (the `i` flag makes the literals case-insensitive). -/
def prepLead : List Seg := [altCI ["on", "by", "until", "before"], clsRep1 isSpaceC]

/-- `(\d{4}-\d{2}-\d{2})` -/
def isoGrp : List Seg :=
  [clsRep isDigitC 4 4, litc '-', clsRep isDigitC 2 2, litc '-', clsRep isDigitC 2 2]

/-- `([A-Za-z]+\s+\d{1,2},?\s+\d{4})` -/
def naturalGrp : List Seg :=
  [clsRep1 isAlphaC, clsRep1 isSpaceC, clsRep isDigitC 1 2, optc ',',
   clsRep1 isSpaceC, clsRep isDigitC 4 4]

/-- `(\d{1,2}\/\d{1,2}\/\d{4})` -/
def slashGrp : List Seg :=
  [clsRep isDigitC 1 2, litc '/', clsRep isDigitC 1 2, litc '/', clsRep isDigitC 4 4]

/-- `(\d{1,2}-\d{1,2}-\d{4})` -/
def dashGrp : List Seg :=
  [clsRep isDigitC 1 2, litc '-', clsRep isDigitC 1 2, litc '-', clsRep isDigitC 4 4]

/-! ## The Genkit date-parsing tool (`parseDateTool`) -/

inductive DateFormat
  | iso
  | isoPrep
  | natural
  | usSlash
  | usDash
deriving DecidableEq, Repr

structure DatePat where
  pre : List Seg
  grp : List Seg
  fmt : DateFormat
  conf : Nat

/-- The `datePatterns` array of `parseDateTool`, in source order.
Confidences are in hundredths (95 stands for the source's 0.95). -/
def toolPatterns : List DatePat :=
  [⟨[], isoGrp, .iso, 95⟩,
   ⟨prepLead, isoGrp, .isoPrep, 90⟩,
   ⟨prepLead, naturalGrp, .natural, 80⟩,
   ⟨prepLead, slashGrp, .usSlash, 70⟩,
   ⟨prepLead, dashGrp, .usDash, 70⟩]

/-- `String.prototype.padStart(2, '0')`. -/
def padStart2 (s : String) : String :=
  if s.length < 2 then "0" ++ s else s

/-- `String.prototype.split(sep)` for a one-character separator. -/
def splitCharAux (sep : Char) : List Char → List Char → List (List Char)
  | [], acc => [acc.reverse]
  | c :: rest, acc =>
    if c == sep then acc.reverse :: splitCharAux sep rest []
    else splitCharAux sep rest (c :: acc)

def splitChar (sep : Char) (l : List Char) : List (List Char) :=
  splitCharAux sep l []

/-- The per-format `parsedDate` construction of `parseDateTool`'s
`switch` statement.  The US and dash formats destructure
`dateStr.split(sep)` into `[month, day, year]` and rebuild an ISO
string with `padStart(2, '0')`. -/
def parseByFormat : DateFormat → String → Option Int
  | .iso, s => jsDateIsoZ s
  | .isoPrep, s => jsDateIsoZ s
  | .natural, s => jsParseNatural s
  | .usSlash, s =>
    match splitChar '/' s.toList with
    | m :: d :: y :: _ =>
      jsDateIsoZ (String.mk y ++ "-" ++ padStart2 (String.mk m) ++ "-" ++
        padStart2 (String.mk d))
    | _ => none
  | .usDash, s =>
    match splitChar '-' s.toList with
    | m :: d :: y :: _ =>
      jsDateIsoZ (String.mk y ++ "-" ++ padStart2 (String.mk m) ++ "-" ++
        padStart2 (String.mk d))
    | _ => none

/-- The tool's output object; `confidence` is in hundredths of the
source's 0-to-1 scale. -/
structure ToolOut where
  hasDate : Bool
  dateIso : Option String
  confidence : Nat
  extractedPhrase : Option String
deriving DecidableEq, Repr

/-- The pattern loop of `parseDateTool`: first regex match wins; a
candidate that fails to parse (`isNaN`) or is not strictly in the
future falls through to the next pattern.  `cur` is
`new Date(currentDate + 'T00:00:00.000Z')` (`none` when invalid: every
comparison against `NaN` is false, so the future check then passes). -/
def runToolPatterns (cur : Option Int) (msg : List Char) : List DatePat → ToolOut
  | [] => ⟨false, none, 0, none⟩
  | p :: ps =>
    match scanMatch p.pre p.grp msg with
    | none => runToolPatterns cur msg ps
    | some (full, grp) =>
      match parseByFormat p.fmt (String.mk grp) with
      | none => runToolPatterns cur msg ps
      | some d =>
        match cur with
        | some c =>
          if d ≤ c then runToolPatterns cur msg ps
          else ⟨true, some (isoOfDays d), p.conf, some (String.mk full)⟩
        | none => ⟨true, some (isoOfDays d), p.conf, some (String.mk full)⟩

/-- Embeds the body of the Genkit tool `parseCommitmentDate`:
`parseDateTool(messageText, currentDate)`. -/
def parseDateTool (messageText currentDate : String) : ToolOut :=
  runToolPatterns (jsDateIsoZ currentDate) messageText.toList toolPatterns

/-! ## The fallback analyzer (`analyzeMessageFallback`) -/

structure Rem where
  date_iso : String
  text : String
deriving DecidableEq, Repr

structure Analysis where
  hasCommitment : Bool
  reminder : Option Rem
deriving DecidableEq, Repr

def noCommitment : Analysis := ⟨false, none⟩

/-- The `commitmentWords` vocabulary of the fallback analyzer. -/
def commitmentWords : List String :=
  ["commit", "promise", "will", "going to", "plan to", "intend to",
   "goal", "target", "deadline", "schedule", "appointment", "reminder"]

/-- `commitmentWords.some(word => messageContent.toLowerCase().includes(word))`. -/
def hasCommitmentWord (messageContent : String) : Bool :=
  commitmentWords.any (fun w =>
    substrB w.toList (messageContent.toList.map Char.toLower))

structure FallPat where
  pre : List Seg
  grp : List Seg

/-- The `datePatterns` array of `analyzeMessageFallback`, in source
order: ISO-with-preposition, natural language, slash format, bare ISO.
There is no dash `MM-DD-YYYY` pattern here. -/
def fallbackPatterns : List FallPat :=
  [⟨prepLead, isoGrp⟩, ⟨prepLead, naturalGrp⟩, ⟨prepLead, slashGrp⟩, ⟨[], isoGrp⟩]

/-- The date loop of the fallback analyzer: each matched candidate is
parsed with plain `new Date(dateStr)` and must be strictly after
`today` (local — here UTC — midnight of the wall clock); otherwise the
loop continues with the next pattern. -/
def fallbackDateLoop (today : Int) (msg : List Char) : List FallPat → Option Int
  | [] => none
  | p :: ps =>
    match scanMatch p.pre p.grp msg with
    | none => fallbackDateLoop today msg ps
    | some (_, grp) =>
      match jsNewDate (String.mk grp) with
      | none => fallbackDateLoop today msg ps
      | some d =>
        if d ≤ today then fallbackDateLoop today msg ps
        else some d

/-- `analyzeMessageFallback` with its date-extraction stage abstracted,
to state that the keyword short-circuit returns before any date work:
if no commitment keyword occurs, the result does not depend on
`dates` at all. -/
def analyzeMessageFallbackGen (dates : Int → List Char → Option Int)
    (today : Int) (messageContent : String) : Analysis :=
  if hasCommitmentWord messageContent then
    match dates today messageContent.toList with
    | some d => ⟨true, some ⟨isoOfDays d, jsTrim messageContent⟩⟩
    | none => noCommitment
  else noCommitment

/-- Embeds `analyzeMessageFallback(messageContent)`; `today` is the
wall-clock calendar day (`new Date()` truncated by `setHours(0,0,0,0)`). -/
def analyzeMessageFallback (today : Int) (messageContent : String) : Analysis :=
  analyzeMessageFallbackGen (fun t l => fallbackDateLoop t l fallbackPatterns)
    today messageContent

/-! ## Strategy selection (`analyzeMessage`) -/

/-- The outcome of the Genkit/AI strategy call
(`analyzeMessageWithGenkit`), as seen by `analyzeMessage`: either a
result or a thrown error (network, malformed response, timeout — the
cause is irrelevant to the caller). -/
abbrev AiOutcome := Except Unit Analysis

/-- Embeds `analyzeMessage(messageContent)`: when `LLM_PROVIDER` and
`LLM_API_KEY` are both set, try the AI strategy and on any thrown
error fall through to the deterministic fallback; otherwise go to the
fallback directly.  The return type is error-free: an AI failure never
escapes to the caller. -/
def analyzeMessage (llmConfigured : Bool) (ai : AiOutcome)
    (today : Int) (messageContent : String) : Analysis :=
  if llmConfigured then
    match ai with
    | Except.ok r => r
    | Except.error _ => analyzeMessageFallback today messageContent
  else analyzeMessageFallback today messageContent

/-! ## SHA-256 (`crypto.createHash('sha256')`)

Executable SHA-256 over byte lists; 32-bit words are `Nat` reduced
modulo `2 ^ 32`. -/

namespace Sha256

def w32 (n : Nat) : Nat := n % 4294967296

def rotr (n x : Nat) : Nat := w32 ((x >>> n) ||| (x <<< (32 - n)))

def bSig0 (x : Nat) : Nat := (rotr 2 x) ^^^ (rotr 13 x) ^^^ (rotr 22 x)

def bSig1 (x : Nat) : Nat := (rotr 6 x) ^^^ (rotr 11 x) ^^^ (rotr 25 x)

def sSig0 (x : Nat) : Nat := (rotr 7 x) ^^^ (rotr 18 x) ^^^ (x >>> 3)

def sSig1 (x : Nat) : Nat := (rotr 17 x) ^^^ (rotr 19 x) ^^^ (x >>> 10)

def chF (x y z : Nat) : Nat := (x &&& y) ^^^ ((x ^^^ 4294967295) &&& z)

def majF (x y z : Nat) : Nat := (x &&& y) ^^^ (x &&& z) ^^^ (y &&& z)

/-- The eight initial hash words of FIPS 180-4, in decimal. -/
def initH : List Nat :=
  [1779033703, 3144134277, 1013904242, 2773480762,
   1359893119, 2600822924, 528734635, 1541459225]

/-- The 64 round constants of FIPS 180-4, in decimal. -/
def roundK : List Nat :=
  [1116352408, 1899447441, 3049323471, 3921009573, 961987163, 1508970993,
   2453635748, 2870763221, 3624381080, 310598401, 607225278, 1426881987,
   1925078388, 2162078206, 2614888103, 3248222580, 3835390401, 4022224774,
   264347078, 604807628, 770255983, 1249150122, 1555081692, 1996064986,
   2554220882, 2821834349, 2952996808, 3210313671, 3336571891, 3584528711,
   113926993, 338241895, 666307205, 773529912, 1294757372, 1396182291,
   1695183700, 1986661051, 2177026350, 2456956037, 2730485921, 2820302411,
   3259730800, 3345764771, 3516065817, 3600352804, 4094571909, 275423344,
   430227734, 506948616, 659060556, 883997877, 958139571, 1322822218,
   1537002063, 1747873779, 1955562222, 2024104815, 2227730452, 2361852424,
   2428436474, 2756734187, 3204031479, 3329325298]

/-- SHA-256 padding of a byte message: `0x80`, zeros, 8-byte big-endian
bit length, to a multiple of 64 bytes. -/
def padBytes (msg : List Nat) : List Nat :=
  let len := msg.length
  let zeros := (119 - len % 64) % 64
  let bitLen := len * 8
  msg ++ [0x80] ++ List.replicate zeros 0 ++
    [w32 (bitLen >>> 56) % 256, (bitLen >>> 48) % 256, (bitLen >>> 40) % 256,
     (bitLen >>> 32) % 256, (bitLen >>> 24) % 256, (bitLen >>> 16) % 256,
     (bitLen >>> 8) % 256, bitLen % 256]

/-- Big-endian 32-bit words of a byte list. -/
def bytesToWords : List Nat → List Nat
  | b0 :: b1 :: b2 :: b3 :: rest =>
    (((b0 * 256 + b1) * 256 + b2) * 256 + b3) :: bytesToWords rest
  | _ => []

/-- Split into 16-word blocks (the fuel bounds the number of blocks, so
the recursion is structural and kernel-reducible). -/
def toBlocksFuel : Nat → List Nat → List (List Nat)
  | 0, _ => []
  | fuel + 1, ws =>
    if ws.length < 16 then []
    else ws.take 16 :: toBlocksFuel fuel (ws.drop 16)

def toBlocks (ws : List Nat) : List (List Nat) :=
  toBlocksFuel ws.length ws

/-- Message-schedule extension: from the reversed word list (head is the
most recent word) produce the next `fuel` words. -/
def extendSched : Nat → List Nat → List Nat
  | 0, revW => revW
  | fuel + 1, revW =>
    let w2 := revW.getD 1 0
    let w7 := revW.getD 6 0
    let w15 := revW.getD 14 0
    let w16 := revW.getD 15 0
    extendSched fuel (w32 (sSig1 w2 + w7 + sSig0 w15 + w16) :: revW)

/-- The 64-word message schedule of one block. -/
def schedule (block : List Nat) : List Nat :=
  (extendSched 48 block.reverse).reverse

/-- One compression round. -/
def compressRound (st : List Nat) (kw : Nat × Nat) : List Nat :=
  match st with
  | [a, b, c, d, e, f, g, h] =>
    let t1 := w32 (h + bSig1 e + chF e f g + kw.1 + kw.2)
    let t2 := w32 (bSig0 a + majF a b c)
    [w32 (t1 + t2), a, b, c, w32 (d + t1), e, f, g]
  | st => st

/-- Compress one block into the hash state. -/
def compressBlock (st : List Nat) (block : List Nat) : List Nat :=
  let out := (roundK.zip (schedule block)).foldl compressRound st
  (st.zip out).map (fun p => w32 (p.1 + p.2))

def hashBytes (msg : List Nat) : List Nat :=
  (toBlocks (bytesToWords (padBytes msg))).foldl compressBlock initH

def hexDigit (n : Nat) : Char :=
  if n < 10 then Char.ofNat (48 + n) else Char.ofNat (87 + n)

def toHex8 (n : Nat) : List Char :=
  (List.range 8).map (fun i => hexDigit ((n >>> (28 - 4 * i)) % 16))

/-- `hash.digest('hex')`: 64 lowercase hex characters. -/
def digestHex (msg : List Nat) : String :=
  String.mk ((hashBytes msg).flatMap toHex8)

end Sha256

/-- UTF-8 bytes of one character. -/
def utf8Char (c : Char) : List Nat :=
  let n := c.toNat
  if n < 0x80 then [n]
  else if n < 0x800 then [0xc0 + n / 64, 0x80 + n % 64]
  else if n < 0x10000 then
    [0xe0 + n / 4096, 0x80 + n / 64 % 64, 0x80 + n % 64]
  else
    [0xf0 + n / 262144, 0x80 + n / 4096 % 64, 0x80 + n / 64 % 64, 0x80 + n % 64]

def utf8Bytes (s : String) : List Nat := s.toList.flatMap utf8Char

/-- Embeds `generateReminderId(userId, dateIso, text)`: the hex SHA-256
digest of the single concatenated string
`` `${userId}-${dateIso}-${text}` ``. -/
def generateReminderId (userId dateIso text : String) : String :=
  Sha256.digestHex (utf8Bytes (userId ++ "-" ++ dateIso ++ "-" ++ text))

/-! ## The pipeline (`processUserMessage`)

The Firestore trigger, embedded with explicit state passing: the
reminder collection is an association list keyed by the document path
`(userId, reminderId)` (`reminders/{userId}/userReminders/{reminderId}`),
and the Cloud Tasks queue is the list of enqueue calls made while
handling one event. -/

inductive MsgType
  | user
  | agent
deriving DecidableEq, Repr

/-- The fields of a message document the function consumes. -/
structure MessageData where
  content : String
  userId : String
  type : MsgType
deriving DecidableEq, Repr

/-- A Firestore create event: `event.data?.data()` may be absent. -/
structure Event where
  data : Option MessageData
  messageId : String
  sessionId : String
deriving DecidableEq, Repr

/-- The `ReminderData` document written to Firestore; `createdAt` is the
`Timestamp.now()` taken while handling the event. -/
structure ReminderDoc where
  userId : String
  date_iso : String
  text : String
  createdAt : Int
  messageId : String
  sessionId : String
deriving DecidableEq, Repr

abbrev ReminderStore := List ((String × String) × ReminderDoc)

/-- `docRef.set(data, { merge: true })` where `data` carries every field
of the document schema: the fields of an existing document under the
same path are all replaced; a missing document is created. -/
def setMerge : ReminderStore → (String × String) → ReminderDoc → ReminderStore
  | [], key, doc => [(key, doc)]
  | (k0, d0) :: rest, key, doc =>
    if k0 = key then (k0, doc) :: rest
    else (k0, d0) :: setMerge rest key doc

/-- One `tasksClient.createTask` call made by `scheduleNotification`:
the payload `{userId, reminderText}` and the task's `scheduleTime`
(`Math.floor(scheduleTime.getTime() / 1000)`). -/
structure SchedTask where
  userId : String
  reminderText : String
  scheduleSeconds : Int
deriving DecidableEq, Repr

/-- Environment switches read by the function. -/
structure Env where
  llmConfigured : Bool
  isEmulator : Bool
  projectId : Option String
deriving DecidableEq, Repr

/-- Result of handling one event: the updated store, the enqueue calls
made, and whether the analyzer was invoked. -/
structure Outcome where
  store : ReminderStore
  scheduled : List SchedTask
  analyzed : Bool
deriving DecidableEq, Repr

/-- Embeds the handler of `processUserMessage` for one event.

* No document data, or `type !== 'user'`: return with no further work.
* Otherwise analyze; without a commitment, return.
* With a commitment, write the reminder under the fingerprint id with
  `merge: true`, then (outside the emulator) compute the schedule time
  — whose `Invalid date` throw is caught by the inner `try/catch`,
  skipping the enqueue — and, when `GCLOUD_PROJECT` is set, enqueue the
  notification task. -/
def processUserMessage (env : Env) (ai : AiOutcome) (today nowTs : Int)
    (store : ReminderStore) (ev : Event) : Outcome :=
  match ev.data with
  | none => ⟨store, [], false⟩
  | some md =>
    if md.type = MsgType.user then
      let analysis := analyzeMessage env.llmConfigured ai today md.content
      match analysis.reminder with
      | none => ⟨store, [], true⟩
      | some rem =>
        if analysis.hasCommitment then
          let reminderId := generateReminderId md.userId rem.date_iso rem.text
          let doc : ReminderDoc :=
            ⟨md.userId, rem.date_iso, rem.text, nowTs, ev.messageId, ev.sessionId⟩
          let store1 := setMerge store (md.userId, reminderId) doc
          if env.isEmulator then ⟨store1, [], true⟩
          else
            match calculateScheduleTime rem.date_iso with
            | Except.error _ => ⟨store1, [], true⟩
            | Except.ok ms =>
              match env.projectId with
              | none => ⟨store1, [], true⟩
              | some _ => ⟨store1, [⟨md.userId, rem.text, Int.ediv ms 1000⟩], true⟩
        else ⟨store, [], true⟩
    else ⟨store, [], false⟩

/-- Two deliveries processed in sequence against the same store
(redelivery of the same commitment, or two messages restating it). -/
def processTwice (env : Env) (ai1 ai2 : AiOutcome) (today ts1 ts2 : Int)
    (ev1 ev2 : Event) : Outcome × Outcome :=
  let o1 := processUserMessage env ai1 today ts1 [] ev1
  let o2 := processUserMessage env ai2 today ts2 o1.store ev2
  (o1, o2)

/-! ## Sanity of the SHA-256 embedding -/

/-- FIPS 180-4 test vector, checking the hash embedding itself. -/
theorem sha256_abc_vector :
    Sha256.digestHex (utf8Bytes "abc") =
      "ba7816bf8f01cfea414140de5dae2223b00361a396177a9cb410ff61f20015ad" := by
  decide

/-! ## Helper lemmas -/

/-- Any output of the tool's pattern loop with `hasDate = true` carries a
date strictly after the reference day: the loop only leaves the
continue path when the future check succeeds. -/
theorem runToolPatterns_future_aux (pats : List DatePat) (c : Int) (msg : List Char)
    (h : (runToolPatterns (some c) msg pats).hasDate = true) :
    ∃ d : Int, c < d ∧
      (runToolPatterns (some c) msg pats).dateIso = some (isoOfDays d) := by
  induction pats with
  | nil => simp [runToolPatterns] at h
  | cons p ps ih =>
    rw [runToolPatterns] at h ⊢
    revert h
    cases hm : scanMatch p.pre p.grp msg with
    | none =>
      intro h
      dsimp only at h ⊢
      exact ih h
    | some pr =>
      obtain ⟨full, grp⟩ := pr
      intro h
      dsimp only at h ⊢
      revert h
      cases hp : parseByFormat p.fmt (String.mk grp) with
      | none =>
        intro h
        dsimp only at h ⊢
        exact ih h
      | some d =>
        intro h
        dsimp only at h ⊢
        by_cases hle : d ≤ c
        · rw [if_pos hle] at h ⊢
          exact ih h
        · rw [if_neg hle] at h ⊢
          exact ⟨d, lt_of_not_le hle, rfl⟩

/-- In every branch that reaches the analyzer (document data present,
`type === 'user'`) the outcome records the analysis as performed. -/
theorem processUserMessage_analyzed_of_user (env : Env) (ai : AiOutcome)
    (today nowTs : Int) (store : ReminderStore) (md : MessageData)
    (mid sid : String) (hty : md.type = MsgType.user) :
    (processUserMessage env ai today nowTs store ⟨some md, mid, sid⟩).analyzed = true := by
  cases hrem : (analyzeMessage env.llmConfigured ai today md.content).reminder with
  | none => simp [processUserMessage, hty, hrem]
  | some rem =>
    cases hhc : (analyzeMessage env.llmConfigured ai today md.content).hasCommitment with
    | false => simp [processUserMessage, hty, hrem, hhc]
    | true =>
      cases hemu : env.isEmulator with
      | true => simp [processUserMessage, hty, hrem, hhc, hemu]
      | false =>
        cases hcal : calculateScheduleTime rem.date_iso with
        | error e => simp [processUserMessage, hty, hrem, hhc, hemu, hcal]
        | ok ms =>
          cases hpid : env.projectId with
          | none => simp [processUserMessage, hty, hrem, hhc, hemu, hcal, hpid]
          | some pid => simp [processUserMessage, hty, hrem, hhc, hemu, hcal, hpid]

/-! ## The claims -/

/-- C3: Future-date invariant of the DateExtractor.  For every message
text and every valid reference date (a UTC calendar day `c`), whenever
`parseDateTool` reports `hasDate = true` its `dateIso` is the ISO
rendering of a calendar day strictly later than `c` — candidates equal
to or earlier than the reference day are rejected (the loop continues
with the next recognizer), across all five recognizer formats. -/
theorem parseDateTool_future_invariant (messageText currentDate : String) (c : Int)
    (hcur : jsDateIsoZ currentDate = some c)
    (h : (parseDateTool messageText currentDate).hasDate = true) :
    ∃ d : Int, c < d ∧
      (parseDateTool messageText currentDate).dateIso = some (isoOfDays d) := by
  unfold parseDateTool at h ⊢
  rw [hcur] at h ⊢
  exact runToolPatterns_future_aux _ c _ h

/-- Witness for C3: on `"I will go to the gym on 2025-08-15"` with
reference day 2025-07-16 (day 20285), the tool finds a strictly later
date. -/
theorem parseDateTool_future_invariant_witness :
    jsDateIsoZ "2025-07-16" = some 20285 ∧
    ∃ d : Int, (20285 : Int) < d ∧
      (parseDateTool "I will go to the gym on 2025-08-15" "2025-07-16").dateIso =
        some (isoOfDays d) :=
  ⟨by decide,
   parseDateTool_future_invariant "I will go to the gym on 2025-08-15" "2025-07-16"
     20285 (by decide) (by decide)⟩

/-- C7: keyword short-circuit of the fallback strategy.  A message
containing none of the twelve commitment keywords yields
`hasCommitment = false`, and the result does not depend on the date
extraction stage at all (any `dates` function gives the same outcome) —
even when the message contains a resolvable future date. -/
theorem fallback_keyword_short_circuit (today : Int) (msg : String)
    (hkw : hasCommitmentWord msg = false) :
    (∀ dates, analyzeMessageFallbackGen dates today msg = noCommitment) ∧
    analyzeMessageFallback today msg = noCommitment := by
  refine ⟨fun dates => ?_, ?_⟩ <;>
    simp [analyzeMessageFallback, analyzeMessageFallbackGen, hkw]

/-- Witness for C7: `"Is 2025-08-15 a holiday?"` has no commitment
keyword, yet carries a date the DateExtractor would accept; the
fallback still reports no commitment. -/
theorem fallback_keyword_short_circuit_witness :
    hasCommitmentWord "Is 2025-08-15 a holiday?" = false ∧
    (parseDateTool "Is 2025-08-15 a holiday?" "2025-07-16").hasDate = true ∧
    analyzeMessageFallback 20285 "Is 2025-08-15 a holiday?" = noCommitment :=
  ⟨by decide, by decide,
   (fallback_keyword_short_circuit 20285 "Is 2025-08-15 a holiday?" (by decide)).2⟩

/-- C6: AI-failure fallback equivalence.  With the AI strategy
configured, a thrown AI call makes `analyzeMessage` return exactly the
result of a direct `analyzeMessageFallback` call on the same message;
the return type is error-free, so the failure is never propagated. -/
theorem analyzeMessage_ai_failure_fallback (e : Unit) (today : Int) (msg : String) :
    analyzeMessage true (Except.error e) today msg = analyzeMessageFallback today msg :=
  rfl

/-- C8: scheduling time exactness.  For every string of valid
`YYYY-MM-DD` shape, `calculateScheduleTime` returns exactly the
instant 00:00:00.000 UTC of that calendar date. -/
theorem calculateScheduleTime_exact (s : String) (y m d : Nat)
    (h : parseYMDStrict s = some (y, m, d)) :
    calculateScheduleTime s = Except.ok (utcMidnightMs y m d) := by
  simp [calculateScheduleTime, jsDateIsoZ, h, utcMidnightMs]

/-- Witness for C8: `calculateScheduleTime "2025-08-15"` is
`2025-08-15T00:00:00.000Z`, i.e. epoch milliseconds 1755216000000. -/
theorem calculateScheduleTime_exact_witness :
    parseYMDStrict "2025-08-15" = some (2025, 8, 15) ∧
    calculateScheduleTime "2025-08-15" = Except.ok (utcMidnightMs 2025 8 15) ∧
    utcMidnightMs 2025 8 15 = 1755216000000 :=
  ⟨by decide, calculateScheduleTime_exact "2025-08-15" 2025 8 15 (by decide), by decide⟩

/-- C9: invalid-date fail-fast.  `calculateScheduleTime "not-a-date"`
throws, and in the pipeline the schedule-time computation strictly
precedes the enqueue call: an event either enqueues nothing, or its
single enqueued task carries a schedule time that
`calculateScheduleTime` successfully computed from the analyzed
commitment's date — so no task is ever enqueued for an invalid
`dateIso`. -/
theorem invalid_date_fail_fast :
    calculateScheduleTime "not-a-date" = Except.error "Invalid date format: not-a-date" ∧
    ∀ (env : Env) (ai : AiOutcome) (today nowTs : Int) (store : ReminderStore) (ev : Event),
      (processUserMessage env ai today nowTs store ev).scheduled = [] ∨
      ∃ md rem ms, ev.data = some md ∧
        (analyzeMessage env.llmConfigured ai today md.content).reminder = some rem ∧
        calculateScheduleTime rem.date_iso = Except.ok ms ∧
        (processUserMessage env ai today nowTs store ev).scheduled =
          [⟨md.userId, rem.text, Int.ediv ms 1000⟩] := by
  refine ⟨rfl, ?_⟩
  intro env ai today nowTs store ev
  rcases ev with ⟨data, mid, sid⟩
  rcases data with _ | md
  · exact Or.inl rfl
  · by_cases hty : md.type = MsgType.user
    · cases hrem : (analyzeMessage env.llmConfigured ai today md.content).reminder with
      | none => exact Or.inl (by simp [processUserMessage, hty, hrem])
      | some rem =>
        cases hhc : (analyzeMessage env.llmConfigured ai today md.content).hasCommitment with
        | false => exact Or.inl (by simp [processUserMessage, hty, hrem, hhc])
        | true =>
          cases hemu : env.isEmulator with
          | true => exact Or.inl (by simp [processUserMessage, hty, hrem, hhc, hemu])
          | false =>
            cases hcal : calculateScheduleTime rem.date_iso with
            | error e =>
              exact Or.inl (by simp [processUserMessage, hty, hrem, hhc, hemu, hcal])
            | ok ms =>
              cases hpid : env.projectId with
              | none =>
                exact Or.inl (by simp [processUserMessage, hty, hrem, hhc, hemu, hcal, hpid])
              | some pid =>
                exact Or.inr ⟨md, rem, ms, rfl, hrem, hcal,
                  by simp [processUserMessage, hty, hrem, hhc, hemu, hcal, hpid]⟩
    · exact Or.inl (by simp [processUserMessage, hty])

/-- C10: fingerprint ambiguity at field boundaries.
`generateReminderId` is deterministic, but hashes the single
concatenated string `userId-dateIso-text`, so the two distinct triples
`("a", "b-c", "t")` and `("a-b", "c", "t")` concatenate to the same
string `"a-b-c-t"` and collide to the same reminder id. -/
theorem generateReminderId_boundary_collision :
    (∀ u d t, generateReminderId u d t = generateReminderId u d t) ∧
    ("a", "b-c", "t") ≠ (("a-b", "c", "t") : String × String × String) ∧
    generateReminderId "a" "b-c" "t" = generateReminderId "a-b" "c" "t" :=
  ⟨fun _ _ _ => rfl, by decide, rfl⟩

/-- C1 (code-bug evaluation): the upsert is not merge-of-identity.
Processing the same gym commitment twice (event `msg-1` at time 100,
then a duplicate `msg-2` at time 200) leaves a single record under the
fingerprint id, but the second `set(..., merge: true)` rewrites every
supplied field: the stored `createdAt` becomes 200 and the provenance
becomes `msg-2`, contradicting the claim that a later duplicate leaves
the record — `createdAt` in particular — untouched. -/
theorem duplicate_write_overwrites_fields :
    (processTwice ⟨false, true, none⟩ (Except.error ()) (Except.error ()) 20285 100 200
        ⟨some ⟨"I will go to the gym on 2025-08-15", "u1", MsgType.user⟩, "msg-1", "s1"⟩
        ⟨some ⟨"I will go to the gym on 2025-08-15", "u1", MsgType.user⟩, "msg-2", "s1"⟩).1.store =
      [(("u1", generateReminderId "u1" "2025-08-15" "I will go to the gym on 2025-08-15"),
        ⟨"u1", "2025-08-15", "I will go to the gym on 2025-08-15", 100, "msg-1", "s1"⟩)] ∧
    (processTwice ⟨false, true, none⟩ (Except.error ()) (Except.error ()) 20285 100 200
        ⟨some ⟨"I will go to the gym on 2025-08-15", "u1", MsgType.user⟩, "msg-1", "s1"⟩
        ⟨some ⟨"I will go to the gym on 2025-08-15", "u1", MsgType.user⟩, "msg-2", "s1"⟩).2.store =
      [(("u1", generateReminderId "u1" "2025-08-15" "I will go to the gym on 2025-08-15"),
        ⟨"u1", "2025-08-15", "I will go to the gym on 2025-08-15", 200, "msg-2", "s1"⟩)] := by
  constructor <;> decide

/-- C2 counterexample: two events carrying the same commitment
`(u1, 2025-08-15, gym text)` processed outside the emulator end with a
single stored Reminder but make TWO notification-scheduling attempts —
the second event, whose write finds the record already existing,
schedules again, so the claimed "exactly one scheduling attempt, none
on the duplicate" is false. -/
theorem duplicate_scheduling_counterexample :
    ((processTwice ⟨false, false, some "proj"⟩ (Except.error ()) (Except.error ()) 20285 100 200
        ⟨some ⟨"I will go to the gym on 2025-08-15", "u1", MsgType.user⟩, "msg-1", "s1"⟩
        ⟨some ⟨"I will go to the gym on 2025-08-15", "u1", MsgType.user⟩, "msg-2", "s1"⟩).1.scheduled ++
      (processTwice ⟨false, false, some "proj"⟩ (Except.error ()) (Except.error ()) 20285 100 200
        ⟨some ⟨"I will go to the gym on 2025-08-15", "u1", MsgType.user⟩, "msg-1", "s1"⟩
        ⟨some ⟨"I will go to the gym on 2025-08-15", "u1", MsgType.user⟩, "msg-2", "s1"⟩).2.scheduled).length = 2 ∧
    (processTwice ⟨false, false, some "proj"⟩ (Except.error ()) (Except.error ()) 20285 100 200
        ⟨some ⟨"I will go to the gym on 2025-08-15", "u1", MsgType.user⟩, "msg-1", "s1"⟩
        ⟨some ⟨"I will go to the gym on 2025-08-15", "u1", MsgType.user⟩, "msg-2", "s1"⟩).2.store.length = 1 ∧
    (processTwice ⟨false, false, some "proj"⟩ (Except.error ()) (Except.error ()) 20285 100 200
        ⟨some ⟨"I will go to the gym on 2025-08-15", "u1", MsgType.user⟩, "msg-1", "s1"⟩
        ⟨some ⟨"I will go to the gym on 2025-08-15", "u1", MsgType.user⟩, "msg-2", "s1"⟩).2.scheduled ≠ [] := by
  refine ⟨by decide, by decide, by decide⟩

/-- C2 amended: two processed events that yield the same
`(userId, dateIso, text)` commitment end with exactly one stored
Reminder (one fingerprint key; the duplicate write replaces its
fields), but EACH event makes its own notification-scheduling attempt —
two attempts total; the pipeline never consults whether the record
already existed before scheduling. -/
theorem duplicate_single_record_two_attempts
    (pid u dio txt c1 c2 m1 s1 m2 s2 : String) (today ts1 ts2 ms : Int)
    (hcal : calculateScheduleTime dio = Except.ok ms) :
    processTwice ⟨true, false, some pid⟩ (Except.ok ⟨true, some ⟨dio, txt⟩⟩)
        (Except.ok ⟨true, some ⟨dio, txt⟩⟩) today ts1 ts2
        ⟨some ⟨c1, u, MsgType.user⟩, m1, s1⟩ ⟨some ⟨c2, u, MsgType.user⟩, m2, s2⟩ =
      (⟨[((u, generateReminderId u dio txt), ⟨u, dio, txt, ts1, m1, s1⟩)],
        [⟨u, txt, Int.ediv ms 1000⟩], true⟩,
       ⟨[((u, generateReminderId u dio txt), ⟨u, dio, txt, ts2, m2, s2⟩)],
        [⟨u, txt, Int.ediv ms 1000⟩], true⟩) := by
  simp [processTwice, processUserMessage, analyzeMessage, setMerge, hcal]

/-- Witness for the amended C2 at concrete inputs. -/
theorem duplicate_single_record_two_attempts_witness :
    processTwice ⟨true, false, some "proj"⟩
        (Except.ok ⟨true, some ⟨"2025-08-15", "go to the gym"⟩⟩)
        (Except.ok ⟨true, some ⟨"2025-08-15", "go to the gym"⟩⟩) 20285 100 200
        ⟨some ⟨"c1", "u1", MsgType.user⟩, "msg-1", "s1"⟩
        ⟨some ⟨"c2", "u1", MsgType.user⟩, "msg-2", "s2"⟩ =
      (⟨[(("u1", generateReminderId "u1" "2025-08-15" "go to the gym"),
          ⟨"u1", "2025-08-15", "go to the gym", 100, "msg-1", "s1"⟩)],
        [⟨"u1", "go to the gym", 1755216000⟩], true⟩,
       ⟨[(("u1", generateReminderId "u1" "2025-08-15" "go to the gym"),
          ⟨"u1", "2025-08-15", "go to the gym", 200, "msg-2", "s2"⟩)],
        [⟨"u1", "go to the gym", 1755216000⟩], true⟩) :=
  duplicate_single_record_two_attempts "proj" "u1" "2025-08-15" "go to the gym"
    "c1" "c2" "msg-1" "s1" "msg-2" "s2" 20285 100 200 1755216000000 rfl

/-- C4 counterexample: `"I will finish by 12-25-2030"` contains the
keyword `will` and a dash-separated future date that the DateExtractor
(`parseDateTool`) accepts with confidence 0.70, yet
`analyzeMessageFallback` reports NO commitment — the fallback's
recognizer list does not agree with the DateExtractor's. -/
theorem fallback_dash_format_counterexample :
    hasCommitmentWord "I will finish by 12-25-2030" = true ∧
    parseDateTool "I will finish by 12-25-2030" "2025-10-11" =
      ⟨true, some "2030-12-25", 70, some "by 12-25-2030"⟩ ∧
    analyzeMessageFallback (civilToDays 2025 10 11) "I will finish by 12-25-2030" =
      noCommitment := by
  refine ⟨by decide, by decide, by decide⟩

/-- C4 amended: the fallback's date extraction does not mirror the
DateExtractor.  It has only four recognizers, ordered
ISO-with-preposition, natural language, slash, bare ISO (bare ISO
last, not first), and no dash `MM-DD-YYYY` recognizer at all: a
keyword message whose only date is dash-separated yields no
commitment even though the DateExtractor accepts that date, the slash
variant of the same message is found (with the full trimmed message as
text), and on a message with both a bare ISO and a prepositioned ISO
date the two components pick different dates. -/
theorem fallback_own_recognizer_list :
    analyzeMessageFallback (civilToDays 2025 10 11) "I will finish by 12-25-2030" =
      noCommitment ∧
    analyzeMessageFallback (civilToDays 2025 10 11) "I will finish by 12/25/2030" =
      ⟨true, some ⟨"2030-12-25", "I will finish by 12/25/2030"⟩⟩ ∧
    analyzeMessageFallback (civilToDays 2025 10 11) "will 2031-05-05 by 2032-06-06" =
      ⟨true, some ⟨"2032-06-06", "will 2031-05-05 by 2032-06-06"⟩⟩ ∧
    (parseDateTool "will 2031-05-05 by 2032-06-06" "2025-10-11").dateIso =
      some "2031-05-05" := by
  refine ⟨by decide, by decide, by decide, by decide⟩

/-- C5 counterexample: an event whose document data is present with
EMPTY content but `type = 'user'` still reaches the analyzer — the
filter never checks content emptiness, contradicting the claimed
"non-empty content" condition. -/
theorem filter_empty_content_counterexample :
    (processUserMessage ⟨false, false, some "proj"⟩ (Except.error ()) 0 0 []
        ⟨some ⟨"", "u1", MsgType.user⟩, "m1", "s1"⟩).analyzed = true := by
  decide

/-- C5 amended: the message is passed to the analyzer if and only if
the event carries document data and its `type` field equals `user`;
content emptiness is NOT part of the filter.  An event with no data or
with a non-user type is terminal: store unchanged, nothing scheduled,
no analysis. -/
theorem filter_checks_data_and_role (env : Env) (ai : AiOutcome)
    (today nowTs : Int) (store : ReminderStore) (ev : Event) :
    ((processUserMessage env ai today nowTs store ev).analyzed = true ↔
      ∃ md, ev.data = some md ∧ md.type = MsgType.user) ∧
    ((ev.data = none ∨ ∃ md, ev.data = some md ∧ md.type = MsgType.agent) →
      processUserMessage env ai today nowTs store ev = ⟨store, [], false⟩) := by
  rcases ev with ⟨data, mid, sid⟩
  rcases data with _ | md
  · exact ⟨by simp [processUserMessage], fun _ => rfl⟩
  · constructor
    · cases hty : md.type with
      | user =>
        simp only [processUserMessage_analyzed_of_user env ai today nowTs store md mid sid hty]
        simp [hty]
      | agent =>
        simp [processUserMessage, hty]
    · rintro (h | ⟨md2, hmd2, hag⟩)
      · exact absurd h (by simp)
      · obtain rfl : md = md2 := by injection hmd2
        simp [processUserMessage, hag]

/-- Witness for the amended C5: an agent-typed message is filtered out
with no analysis, no write and nothing scheduled. -/
theorem filter_checks_data_and_role_witness :
    processUserMessage ⟨false, false, some "proj"⟩ (Except.error ()) 0 0 []
      ⟨some ⟨"I will go to the gym on 2030-01-01", "u1", MsgType.agent⟩, "m1", "s1"⟩ =
      ⟨[], [], false⟩ :=
  (filter_checks_data_and_role ⟨false, false, some "proj"⟩ (Except.error ()) 0 0 []
    ⟨some ⟨"I will go to the gym on 2030-01-01", "u1", MsgType.agent⟩, "m1", "s1"⟩).2
    (Or.inr ⟨_, rfl, rfl⟩)

end AccountabilityAgent
